import Mathlib

/-!
Verification development for a CPU stress-test harness (raspberry_Pi.py).

The program spawns one worker process per core, escalates a shared
(phase, intensity) pair on a 30-second timer, and logs telemetry once per
second.  We embed the relevant parts shallowly: integers become `Int`,
wall-clock times become `ℚ`, fallible platform queries become functions on
an explicit outcome type, and the control loop's stateful snippets become
pure state-transition functions that the loop folds over the observed
clock readings.
-/

/-! ## Escalation controller (main, lines 71-99)

The controller state is the triple of local variables `phase`, `intensity`
and `phase_start_time` of `main`.  One pass through the escalation block
(lines 91-99) with clock reading `now` is `tick`. -/

/-- The local control variables of `main`: `phase`, `intensity`,
`phase_start_time` (lines 71-73). -/
structure CtrlState where
  phase : Int
  intensity : Int
  phase_start_time : ℚ
deriving DecidableEq, Repr

/-- `phase_duration = 30  # Seconds before escalating phase` (line 74). -/
def phase_duration : ℚ := 30

/-- Lines 91-98: if `current_time - phase_start_time >= phase_duration`,
increment `phase` (clamping to 4), increment `intensity`, and reset
`phase_start_time`; otherwise do nothing. -/
def tick (s : CtrlState) (now : ℚ) : CtrlState :=
  if phase_duration ≤ now - s.phase_start_time then
    { phase := if s.phase + 1 > 4 then 4 else s.phase + 1
      intensity := s.intensity + 1
      phase_start_time := now }
  else s

/-- The initial control state of `main` (lines 71-73): `phase = 1`,
`intensity = 1`, `phase_start_time =` the startup clock reading. -/
def initCtrl (t0 : ℚ) : CtrlState := ⟨1, 1, t0⟩

/-- Folding `tick` over a sequence of clock readings: the state after the
control loop has run the escalation block once per listed reading. -/
def runTicks (s : CtrlState) (ts : List ℚ) : CtrlState :=
  ts.foldl tick s

/-- All intermediate states of a run, starting state included. -/
def scanTicks (s : CtrlState) : List ℚ → List CtrlState
  | [] => [s]
  | t :: ts => s :: scanTicks (tick s t) ts

/-- Number of escalations (ticks whose elapsed time reaches
`phase_duration`) in a run. -/
def escCount (s : CtrlState) : List ℚ → Nat
  | [] => 0
  | t :: ts =>
      (if phase_duration ≤ t - s.phase_start_time then 1 else 0) + escCount (tick s t) ts

theorem runTicks_nil (s : CtrlState) : runTicks s [] = s := rfl

theorem runTicks_cons (s : CtrlState) (t : ℚ) (ts : List ℚ) :
    runTicks s (t :: ts) = runTicks (tick s t) ts := rfl

theorem tick_of_lt (s : CtrlState) (now : ℚ)
    (h : now - s.phase_start_time < phase_duration) : tick s now = s := by
  unfold tick
  rw [if_neg (not_le.mpr h)]

theorem tick_phase_le_four (s : CtrlState) (now : ℚ) (h : s.phase ≤ 4) :
    (tick s now).phase ≤ 4 := by
  unfold tick
  split
  · simp only
    split
    · exact le_refl 4
    · omega
  · exact h

theorem tick_phase_mono (s : CtrlState) (now : ℚ) (h : s.phase ≤ 4) :
    s.phase ≤ (tick s now).phase := by
  unfold tick
  split
  · simp only
    split
    · exact h
    · omega
  · exact le_refl _

theorem tick_intensity_mono (s : CtrlState) (now : ℚ) :
    s.intensity ≤ (tick s now).intensity := by
  unfold tick
  split
  · simp only
    omega
  · exact le_refl _

theorem runTicks_phase_le_four (s : CtrlState) (ts : List ℚ) (h : s.phase ≤ 4) :
    (runTicks s ts).phase ≤ 4 := by
  induction ts generalizing s with
  | nil => exact h
  | cons t ts ih => exact ih (tick s t) (tick_phase_le_four s t h)

theorem scanTicks_head (s : CtrlState) (ts : List ℚ) :
    (scanTicks s ts).head? = some s := by
  cases ts <;> rfl

theorem scanTicks_chain (s : CtrlState) (ts : List ℚ) (h : s.phase ≤ 4) :
    List.Chain' (fun a b : CtrlState => a.phase ≤ b.phase ∧ a.intensity ≤ b.intensity)
      (scanTicks s ts) := by
  induction ts generalizing s with
  | nil => simp [scanTicks]
  | cons t ts ih =>
      rw [scanTicks, List.chain'_cons']
      refine ⟨?_, ih (tick s t) (tick_phase_le_four s t h)⟩
      intro b hb
      rw [scanTicks_head, Option.mem_some_iff] at hb
      subst hb
      exact ⟨tick_phase_mono s t h, tick_intensity_mono s t⟩

theorem scanTicks_phase_le_four (s : CtrlState) (ts : List ℚ) (h : s.phase ≤ 4) :
    ∀ x ∈ scanTicks s ts, x.phase ≤ 4 := by
  induction ts generalizing s with
  | nil =>
      intro x hx
      simp only [scanTicks, List.mem_singleton] at hx
      subst hx; exact h
  | cons t ts ih =>
      intro x hx
      simp only [scanTicks, List.mem_cons] at hx
      rcases hx with rfl | hx
      · exact h
      · exact ih (tick s t) (tick_phase_le_four s t h) x hx

theorem tick_intensity_of_escalate (s : CtrlState) (now : ℚ)
    (h : phase_duration ≤ now - s.phase_start_time) :
    (tick s now).intensity = s.intensity + 1 := by
  unfold tick
  rw [if_pos h]

/-- C3. For every sequence of escalation tick calls starting from
`phase = 1`, `intensity = 1`, regardless of call times: phase and intensity
are monotonically non-decreasing along the run, phase never exceeds 4, and
intensity increases by exactly 1 on each escalation (a tick whose elapsed
time reaches `phase_duration`) and is unchanged on every other tick. -/
theorem escalation_monotone_clamped (t0 : ℚ) (ts : List ℚ) :
    List.Chain' (fun a b : CtrlState => a.phase ≤ b.phase ∧ a.intensity ≤ b.intensity)
      (scanTicks (initCtrl t0) ts) ∧
    (∀ x ∈ scanTicks (initCtrl t0) ts, x.phase ≤ 4) ∧
    (∀ now : ℚ, phase_duration ≤ now - (runTicks (initCtrl t0) ts).phase_start_time →
      (tick (runTicks (initCtrl t0) ts) now).intensity
        = (runTicks (initCtrl t0) ts).intensity + 1) ∧
    (∀ now : ℚ, now - (runTicks (initCtrl t0) ts).phase_start_time < phase_duration →
      tick (runTicks (initCtrl t0) ts) now = runTicks (initCtrl t0) ts) := by
  have h1 : (initCtrl t0).phase ≤ 4 := by simp [initCtrl]
  refine ⟨scanTicks_chain _ ts h1, scanTicks_phase_le_four _ ts h1, ?_, ?_⟩
  · intro now h
    exact tick_intensity_of_escalate _ now h
  · intro now h
    exact tick_of_lt _ now h

/-- Witness for C3 at a concrete run: start at time 0, tick at time 30
(escalates to phase 2, intensity 2), then check one more tick at time 60. -/
theorem escalation_monotone_clamped_witness :
    (tick (runTicks (initCtrl 0) [30]) 60).intensity
      = (runTicks (initCtrl 0) [30]).intensity + 1 :=
  (escalation_monotone_clamped 0 [30]).2.2.1 60 (by
    norm_num [runTicks, tick, initCtrl, phase_duration, List.foldl])

/-- C2, amended. A tick whose elapsed time since `phase_start_time` is
below `phase_duration` changes nothing, and a whole sequence of ticks all
falling before `phase_start_time + phase_duration` leaves the state
unchanged.  (The original claim's second clause — ticks merely *spaced*
less than `phase_duration` apart never change the state — is refuted by
`tick_spacing_counterexample` below.) -/
theorem tick_noop_within_window (s : CtrlState) (now : ℚ) (ts : List ℚ) :
    (now - s.phase_start_time < phase_duration → tick s now = s) ∧
    ((∀ t ∈ ts, t - s.phase_start_time < phase_duration) → runTicks s ts = s) := by
  constructor
  · exact tick_of_lt s now
  · intro h
    induction ts with
    | nil => rfl
    | cons t ts ih =>
        have ht : tick s t = s := tick_of_lt s t (h t (List.mem_cons_self t ts))
        rw [runTicks_cons, ht]
        exact ih fun u hu => h u (List.mem_cons_of_mem t hu)

/-- Witness for C2: from the startup state at time 0, ticks at times 5, 10
and 20 (all inside the 30-unit window) are no-ops. -/
theorem tick_noop_within_window_witness :
    tick (initCtrl 0) 10 = initCtrl 0 ∧ runTicks (initCtrl 0) [5, 10, 20] = initCtrl 0 :=
  ⟨(tick_noop_within_window (initCtrl 0) 10 [5, 10, 20]).1 (by
      norm_num [initCtrl, phase_duration]),
   (tick_noop_within_window (initCtrl 0) 10 [5, 10, 20]).2 (by
      intro t ht
      simp only [initCtrl, List.mem_cons, List.not_mem_nil] at ht
      rcases ht with rfl | rfl | rfl | h
      · norm_num [initCtrl, phase_duration]
      · norm_num [initCtrl, phase_duration]
      · norm_num [initCtrl, phase_duration]
      · exact absurd h (by simp))⟩

/-- C2 counterexample. Two ticks at times 29 and 58 are spaced
29 < 30 = `phase_duration` apart (and the first lies within the window of
the start time 0), yet the second tick escalates: phase and intensity
change from 1 to 2.  So repeated ticks spaced less than `phase_duration`
apart *can* change phase and intensity. -/
theorem tick_spacing_counterexample :
    (29 : ℚ) - (initCtrl 0).phase_start_time < phase_duration ∧
    (58 : ℚ) - 29 < phase_duration ∧
    (runTicks (initCtrl 0) [29, 58]).phase = 2 ∧
    (runTicks (initCtrl 0) [29, 58]).intensity = 2 := by
  refine ⟨by norm_num [initCtrl, phase_duration], by norm_num [phase_duration], ?_, ?_⟩ <;>
    norm_num [runTicks, tick, initCtrl, phase_duration, List.foldl]

theorem tick_phase_eq_min (s : CtrlState) (now : ℚ)
    (h : s.phase = min s.intensity 4) :
    (tick s now).phase = min (tick s now).intensity 4 := by
  unfold tick
  split
  · simp only
    split <;> omega
  · exact h

theorem runTicks_intensity_eq (s : CtrlState) (ts : List ℚ) :
    (runTicks s ts).intensity = s.intensity + (escCount s ts : Int) := by
  induction ts generalizing s with
  | nil => simp [runTicks, escCount]
  | cons t ts ih =>
      rw [runTicks_cons, ih, escCount]
      by_cases hc : phase_duration ≤ t - s.phase_start_time
      · rw [tick_intensity_of_escalate s t hc, if_pos hc]
        push_cast
        ring
      · rw [tick_of_lt s t (not_le.mp hc), if_neg hc]
        push_cast
        ring

theorem runTicks_phase_eq_min (s : CtrlState) (ts : List ℚ)
    (h : s.phase = min s.intensity 4) :
    (runTicks s ts).phase = min (runTicks s ts).intensity 4 := by
  induction ts generalizing s with
  | nil => exact h
  | cons t ts ih => exact ih (tick s t) (tick_phase_eq_min s t h)

/-- C9. Throughout any run starting from `phase = 1`, `intensity = 1`:
after every tick, `phase = min(intensity, 4)`, and `intensity` equals `1`
plus the number of escalations that have occurred so far. -/
theorem phase_tracks_intensity (t0 : ℚ) (ts : List ℚ) :
    (runTicks (initCtrl t0) ts).phase = min (runTicks (initCtrl t0) ts).intensity 4 ∧
    (runTicks (initCtrl t0) ts).intensity = 1 + (escCount (initCtrl t0) ts : Int) := by
  constructor
  · exact runTicks_phase_eq_min (initCtrl t0) ts (by simp [initCtrl])
  · rw [runTicks_intensity_eq]
    simp [initCtrl]

/-! ## Load generators (lines 10-33)

The four CPU-bound kernels.  `np.random.rand` matrices become explicit
matrix arguments; `hashlib.sha256` becomes an explicit hash-function
argument (both are external collaborators).  Loop bodies are folded over
`List.range`, so the fold length is exactly the Python loop's iteration
count. -/

/-- Lines 10-14: `x = 0; for _ in range(intensity * 500): x += 1`. -/
def simple_arithmetic (intensity : Nat) : Nat :=
  (List.range (intensity * 500)).foldl (fun x _ => x + 1) 0

/-- Lines 16-20: `x = 1; for _ in range(intensity * 1000): x *= 2`. -/
def complex_arithmetic (intensity : Nat) : Nat :=
  (List.range (intensity * 1000)).foldl (fun x _ => x * 2) 1

/-- Line 24: `size = intensity * 15`. -/
def matrixSize (intensity : Nat) : Nat := intensity * 15

/-- Lines 22-27: one dense product of two square matrices of side
`intensity * 15` (`np.dot(a, b)`), the random inputs taken as arguments. -/
def matrix_operations (intensity : Nat)
    (a b : Fin (matrixSize intensity) → Fin (matrixSize intensity) → ℚ) :
    Fin (matrixSize intensity) → Fin (matrixSize intensity) → ℚ :=
  fun i j => ∑ l, a i l * b l j

/-- The byte string `b"stress_data"` (line 31). -/
def stressData : List Nat := [115, 116, 114, 101, 115, 115, 95, 100, 97, 116, 97]

/-- Line 31: `data = b"stress_data" * (intensity * 10)`. -/
def hashData (intensity : Nat) : List Nat :=
  (List.replicate (intensity * 10) stressData).flatten

/-- Lines 29-33: `for _ in range(intensity * 20): hashlib.sha256(data).digest()`,
the hash function taken as an argument; the result collects the digests
computed, one per loop iteration. -/
def intensive_hashing (sha256 : List Nat → List Nat) (intensity : Nat) :
    List (List Nat) :=
  (List.range (intensity * 20)).map fun _ => sha256 (hashData intensity)

theorem foldl_succ_eq (l : List Nat) (acc : Nat) :
    l.foldl (fun x _ => x + 1) acc = acc + l.length := by
  induction l generalizing acc with
  | nil => simp
  | cons a l ih => simp [List.foldl, ih]; omega

theorem foldl_double_eq (l : List Nat) (acc : Nat) :
    l.foldl (fun x _ => x * 2) acc = acc * 2 ^ l.length := by
  induction l generalizing acc with
  | nil => simp
  | cons a l ih =>
      simp only [List.foldl, ih, List.length_cons, pow_succ]
      ring

/-- C10. Every load generator is total (hence terminates) and its work is
determined by the intensity `k`: `simple_arithmetic` performs `500 * k`
increments, `complex_arithmetic` performs `1000 * k` doublings,
`matrix_operations` computes one product of square matrices of side
`15 * k`, and `intensive_hashing` hashes a `10 * k`-replicated buffer
`20 * k` times. -/
theorem load_generators_terminate (k : Nat) (h : 0 < k)
    (sha256 : List Nat → List Nat)
    (a b : Fin (matrixSize k) → Fin (matrixSize k) → ℚ) :
    simple_arithmetic k = 500 * k ∧
    complex_arithmetic k = 2 ^ (1000 * k) ∧
    matrixSize k = 15 * k ∧
    (∀ i j, matrix_operations k a b i j = (Matrix.of a * Matrix.of b) i j) ∧
    (intensive_hashing sha256 k).length = 20 * k ∧
    (hashData k).length = 110 * k := by
  refine ⟨?_, ?_, ?_, ?_, ?_, ?_⟩
  · rw [simple_arithmetic, foldl_succ_eq, List.length_range]
    omega
  · rw [complex_arithmetic, foldl_double_eq, List.length_range]
    ring_nf
  · rw [matrixSize, Nat.mul_comm]
  · intro i j
    rw [matrix_operations, Matrix.mul_apply]
    rfl
  · rw [intensive_hashing, List.length_map, List.length_range]
    omega
  · rw [hashData, List.length_flatten]
    simp [stressData, List.map_replicate]
    omega

/-- Witness for C10 at `k = 1`. -/
theorem load_generators_terminate_witness :
    simple_arithmetic 1 = 500 * 1 ∧ matrixSize 1 = 15 * 1 :=
  ⟨(load_generators_terminate 1 (by decide) id (fun _ _ => 0) (fun _ _ => 0)).1,
   (load_generators_terminate 1 (by decide) id (fun _ _ => 0) (fun _ _ => 0)).2.2.1⟩

/-! ## Worker dispatch (stress_worker, lines 35-45)

`main` passes the *manager proxies* `shared_phase` and `shared_intensity`
to `stress_worker` (line 81), so inside the worker the parameters `phase`
and `intensity` are `multiprocessing.managers.ValueProxy` objects, not
integers.  We model the Python values in play with `PyVal`, and Python's
`==` on them with `pyEq`: two `int`s compare by value, while a
`ValueProxy` defines no `__eq__`, so comparing it with an `int` literal
falls back to object identity and is always `False` (a proxy object is
never the same object as an `int`). -/

/-- A Python value reaching `stress_worker`: either a plain `int`, or a
manager `ValueProxy` whose shared cell currently holds the given integer. -/
inductive PyVal where
  | int : Int → PyVal
  | valueProxy : Int → PyVal
deriving DecidableEq, Repr

/-- Python `==` as used on line 38-44: `int == int` compares values;
`ValueProxy == int` falls back to identity (no `__eq__` on the proxy) and
is `False`. -/
def pyEq : PyVal → PyVal → Bool
  | PyVal.int a, PyVal.int b => a == b
  | _, _ => false

/-- The call the worker makes on one loop iteration. -/
inductive WorkerCall where
  | callSimple : PyVal → WorkerCall
  | callComplex : PyVal → WorkerCall
  | callMatrix : PyVal → WorkerCall
  | callHashing : PyVal → WorkerCall
  | callNothing : WorkerCall
deriving DecidableEq, Repr

/-- Lines 37-45: one iteration of the `while True` body of `stress_worker`:
the `if phase == 1 / elif ... == 2 / ... == 3 / ... == 4` chain, recording
which load generator gets invoked with which argument (or that none is). -/
def stress_worker_iter (phase intensity : PyVal) : WorkerCall :=
  if pyEq phase (PyVal.int 1) then WorkerCall.callSimple intensity
  else if pyEq phase (PyVal.int 2) then WorkerCall.callComplex intensity
  else if pyEq phase (PyVal.int 3) then WorkerCall.callMatrix intensity
  else if pyEq phase (PyVal.int 4) then WorkerCall.callHashing intensity
  else WorkerCall.callNothing

/-- C1. Evaluation at the claim's scenario: with the shared cells holding
`phase = 3`, `intensity = 2`, the worker — which receives the manager
*proxies*, not their values — matches no branch of the dispatch chain and
invokes no load generator at all, contradicting the claim that it invokes
the matrix workload.  Had the worker been passed the plain integer values
instead, the dispatch would select the matrix workload with side
`matrixSize 2 = 30`, which is what the claim (and the code's own
docstrings) describe. -/
theorem stress_worker_proxy_no_dispatch :
    stress_worker_iter (PyVal.valueProxy 3) (PyVal.valueProxy 2) = WorkerCall.callNothing ∧
    stress_worker_iter (PyVal.int 3) (PyVal.int 2) = WorkerCall.callMatrix (PyVal.int 2) ∧
    matrixSize 2 = 30 := by
  refine ⟨rfl, rfl, rfl⟩

/-! ## Sensor adapters (lines 47-63)

`get_cpu_frequency` and `get_cpu_temperature` call `vcgencmd` through
`subprocess.check_output` and parse its output; the whole body sits in a
`try/except Exception: return None`.  We model the platform call's outcome
with `PlatformResult`, the body — the code *inside* the `try`, which may
raise — as an `Except` computation, and the published function as that
body with the `except` clause applied (`Except.toOption`). -/

/-- The Python exceptions the sensor bodies can raise: the subprocess call
failing, a `[1]` index on a too-short split list, and `int()`/`float()` on
a malformed string. -/
inductive PyExn where
  | subprocessError
  | indexError
  | valueError
deriving DecidableEq, Repr

/-- Outcome of `subprocess.check_output([...]).decode("utf-8")`: the
decoded output string, or the call raised (command missing, bad exit, ...). -/
inductive PlatformResult where
  | ok : String → PlatformResult
  | raised : PlatformResult
deriving DecidableEq, Repr

/-- Python list indexing `l[i]`, raising `IndexError` when out of range. -/
def pyIndex (l : List String) (i : Nat) : Except PyExn String :=
  match l[i]? with
  | some s => Except.ok s
  | none => Except.error PyExn.indexError

/-- Python `str.split(sep)` for a one-character separator, on the string's
character list: cut at every occurrence of `sep`; `n` separators yield
`n + 1` pieces, empty pieces kept. -/
def splitChar (sep : Char) : List Char → List (List Char)
  | [] => [[]]
  | c :: rest =>
      match splitChar sep rest with
      | [] => [[]]
      | h :: t => if c = sep then [] :: h :: t else (c :: h) :: t

/-- Python `str.split(sep)` for a one-character separator, on strings. -/
def pySplit (s : String) (sep : Char) : List String :=
  (splitChar sep s.data).map String.mk

/-- Python `str.strip()`: the characters with leading and trailing
whitespace removed. -/
def pyStrip (s : String) : List Char :=
  ((s.data.dropWhile Char.isWhitespace).reverse.dropWhile Char.isWhitespace).reverse

/-- Numeric value of a digit-character list. -/
def digitsVal (cs : List Char) : Nat :=
  cs.foldl (fun a c => a * 10 + (c.toNat - 48)) 0

/-- Python `int(s)`: strip whitespace, then an optionally signed nonempty
digit string, else `ValueError`. -/
def pyInt (s : String) : Except PyExn Int :=
  let cs := pyStrip s
  let sd : Int × List Char :=
    match cs with
    | c :: rest =>
        if c = '-' then (-1, rest) else if c = '+' then (1, rest) else (1, cs)
    | [] => (1, [])
  if sd.2 ≠ [] ∧ sd.2.all Char.isDigit then Except.ok (sd.1 * (digitsVal sd.2 : Int))
  else Except.error PyExn.valueError

/-- Python `float(s)` on the plain decimal forms relevant here: strip
whitespace, optional sign, digits with at most one decimal point;
anything else raises `ValueError`. -/
def pyFloat (s : String) : Except PyExn ℚ :=
  let cs := pyStrip s
  let sb : Bool × List Char :=
    match cs with
    | c :: rest =>
        if c = '-' then (true, rest) else if c = '+' then (false, rest) else (false, cs)
    | [] => (false, [])
  let q : Option ℚ :=
    match splitChar '.' sb.2 with
    | [w] => if w ≠ [] ∧ w.all Char.isDigit then some ((digitsVal w : ℚ)) else none
    | [w, f] =>
        if (w ++ f) ≠ [] ∧ (w ++ f).all Char.isDigit then
          some ((digitsVal w : ℚ) + (digitsVal f : ℚ) / (10 : ℚ) ^ f.length)
        else none
    | _ => none
  match q with
  | some v => Except.ok (if sb.1 then -v else v)
  | none => Except.error PyExn.valueError

/-- Lines 49-52, the body of the `try` in `get_cpu_frequency`:
`int(freq_str.split("=")[1]) / 1_000_000`. -/
def bodyFreq (r : PlatformResult) : Except PyExn ℚ :=
  match r with
  | PlatformResult.raised => Except.error PyExn.subprocessError
  | PlatformResult.ok out => do
      let s ← pyIndex (pySplit out '=') 1
      let n ← pyInt s
      Except.ok ((n : ℚ) / 1000000)

/-- Lines 47-54: the body wrapped in `try/except Exception: return None`. -/
def get_cpu_frequency (r : PlatformResult) : Option ℚ :=
  (bodyFreq r).toOption

/-- Lines 58-61, the body of the `try` in `get_cpu_temperature`:
`float(temp_str.split("=")[1].split("\x27")[0])`. -/
def bodyTemp (r : PlatformResult) : Except PyExn ℚ :=
  match r with
  | PlatformResult.raised => Except.error PyExn.subprocessError
  | PlatformResult.ok out => do
      let s ← pyIndex (pySplit out '=') 1
      let s2 ← pyIndex (pySplit s '\x27') 0
      pyFloat s2

/-- Lines 56-63: the body wrapped in `try/except Exception: return None`. -/
def get_cpu_temperature (r : PlatformResult) : Option ℚ :=
  (bodyTemp r).toOption

/-- C4. For every outcome of the platform query — success with arbitrary
(possibly malformed) output, or a raised call — the published sensor
functions return `some` reading exactly when their try-body succeeds and
`none` whenever the body raises any exception; they never propagate one. -/
theorem sensors_never_throw (rf rt : PlatformResult) :
    (match bodyFreq rf with
     | Except.ok q => get_cpu_frequency rf = some q
     | Except.error _ => get_cpu_frequency rf = none) ∧
    (match bodyTemp rt with
     | Except.ok q => get_cpu_temperature rt = some q
     | Except.error _ => get_cpu_temperature rt = none) := by
  constructor
  · cases hf : bodyFreq rf <;> simp [get_cpu_frequency, hf, Except.toOption]
  · cases ht : bodyTemp rt <;> simp [get_cpu_temperature, ht, Except.toOption]

/-! ## Telemetry monitor (main, lines 101-108)

One pass through the logging block builds the logged record from the two
sensor outcomes plus the OS readings (`os.getloadavg()`,
`psutil.cpu_percent(interval=0.1)`), which are taken as arguments. -/

/-- The record printed on line 107: phase, intensity, the two optional
sensor readings, CPU usage, and the three load averages. -/
structure TelemetrySample where
  phase : Int
  intensity : Int
  cpu_freq_mhz : Option ℚ
  cpu_temp_c : Option ℚ
  cpu_usage_pct : ℚ
  load_avg : ℚ × ℚ × ℚ
deriving DecidableEq, Repr

/-- Lines 103-107: call both sensor adapters on their platform outcomes
and assemble the sample that gets logged. -/
def logSample (phase intensity : Int) (rf rt : PlatformResult)
    (load_avg : ℚ × ℚ × ℚ) (cpu_usage : ℚ) : TelemetrySample :=
  { phase := phase
    intensity := intensity
    cpu_freq_mhz := get_cpu_frequency rf
    cpu_temp_c := get_cpu_temperature rt
    cpu_usage_pct := cpu_usage
    load_avg := load_avg }

/-- C5. Sensor failures stay in their own field: if the temperature body
raises while the frequency body succeeds with reading `q`, the emitted
sample has `cpu_temp_c = none` and `cpu_freq_mhz = some q`; and if both
bodies raise, a complete sample is still emitted, with both sensor fields
`none` and every other field intact.  (Emission is total: `logSample` is a
function, so no exception escapes the monitor.) -/
theorem monitor_isolates_sensor_failures (p i : Int) (rf rt : PlatformResult)
    (l : ℚ × ℚ × ℚ) (u : ℚ) :
    (∀ (q : ℚ) (e : PyExn), bodyFreq rf = Except.ok q → bodyTemp rt = Except.error e →
        (logSample p i rf rt l u).cpu_temp_c = none ∧
        (logSample p i rf rt l u).cpu_freq_mhz = some q) ∧
    (∀ ef et : PyExn, bodyFreq rf = Except.error ef → bodyTemp rt = Except.error et →
        (logSample p i rf rt l u).cpu_temp_c = none ∧
        (logSample p i rf rt l u).cpu_freq_mhz = none ∧
        (logSample p i rf rt l u).phase = p ∧
        (logSample p i rf rt l u).intensity = i ∧
        (logSample p i rf rt l u).cpu_usage_pct = u ∧
        (logSample p i rf rt l u).load_avg = l) := by
  constructor
  · intro q e hf ht
    constructor
    · simp [logSample, get_cpu_temperature, ht, Except.toOption]
    · simp [logSample, get_cpu_frequency, hf, Except.toOption]
  · intro ef et hf ht
    refine ⟨?_, ?_, rfl, rfl, rfl, rfl⟩
    · simp [logSample, get_cpu_temperature, ht, Except.toOption]
    · simp [logSample, get_cpu_frequency, hf, Except.toOption]

/-- Witness for C5: frequency query returns well-formed `vcgencmd` output,
temperature query raises; the sample keeps the frequency and marks the
temperature absent. -/
theorem monitor_isolates_sensor_failures_witness :
    (logSample 1 1 (PlatformResult.ok "frequency(48)=600000000\n")
        PlatformResult.raised (0, 0, 0) 0).cpu_temp_c = none ∧
    (logSample 1 1 (PlatformResult.ok "frequency(48)=600000000\n")
        PlatformResult.raised (0, 0, 0) 0).cpu_freq_mhz
      = some (((600000000 : Int) : ℚ) / 1000000) :=
  (monitor_isolates_sensor_failures 1 1 (PlatformResult.ok "frequency(48)=600000000\n")
      PlatformResult.raised (0, 0, 0) 0).1
    (((600000000 : Int) : ℚ) / 1000000) PyExn.subprocessError rfl rfl

/-! ## Monitor sampling cadence (main, lines 86, 101-108)

`last_log_time` starts at the clock reading of line 86; each loop pass
reads the clock and logs when `current_time - last_log_time >= 1`, then
sets `last_log_time = current_time`.  `logTimes last ts` is the list of
emission times produced by loop passes at clock readings `ts`. -/

/-- Lines 102 and 108: the emission times of the telemetry monitor, given
the initial `last_log_time` and the successive clock readings of the
control loop. -/
def logTimes (last_log_time : ℚ) : List ℚ → List ℚ
  | [] => []
  | t :: ts =>
      if 1 ≤ t - last_log_time then t :: logTimes t ts
      else logTimes last_log_time ts

theorem logTimes_chain_aux (d L : ℚ) (ts : List ℚ)
    (h1 : List.Chain' (fun a b : ℚ => b ≤ a + d) ts)
    (h2 : ∀ t ∈ ts.head?, t < L + 1 + d) :
    List.Chain' (fun a b : ℚ => a + 1 ≤ b ∧ b < a + 1 + d) (L :: logTimes L ts) := by
  induction ts generalizing L with
  | nil => simp [logTimes]
  | cons t ts ih =>
      rw [List.chain'_cons'] at h1
      have hhd : ∀ u ∈ ts.head?, u ≤ t + d := h1.1
      have hts : List.Chain' (fun a b : ℚ => b ≤ a + d) ts := h1.2
      have htL : t < L + 1 + d := h2 t rfl
      rw [logTimes]
      by_cases hc : 1 ≤ t - L
      · rw [if_pos hc, List.chain'_cons]
        refine ⟨⟨by linarith, htL⟩, ?_⟩
        exact ih t hts fun u hu => lt_of_le_of_lt (hhd u hu) (by linarith)
      · rw [if_neg hc]
        push_neg at hc
        exact ih L hts fun u hu => lt_of_le_of_lt (hhd u hu) (by linarith)

/-- C6, amended. Under continuous control-loop ticking — loop passes at
clock readings each within `d` of the previous one (and the first within
`d` of the initial `last_log_time`) — consecutive telemetry emissions are
at least 1 time-unit apart (so at most one sample falls in any half-open
1-unit window), and each emission follows the previous one (or the start)
by strictly less than `1 + d` (so every window of length `1 + d` starting
at an emission contains the next one).  The original claim's stronger
bound — at least one sample in *every* 1-unit window — is refuted by
`monitor_one_unit_window_counterexample` below. -/
theorem monitor_sampling_rate (d L : ℚ) (ts : List ℚ)
    (h : List.Chain' (fun a b : ℚ => b ≤ a + d) (L :: ts)) :
    List.Chain' (fun a b : ℚ => a + 1 ≤ b ∧ b < a + 1 + d) (L :: logTimes L ts) := by
  rw [List.chain'_cons'] at h
  exact logTimes_chain_aux d L ts h.2 fun u hu => lt_of_le_of_lt (h.1 u hu) (by linarith)

/-- Witness for C6: `last_log_time = 0`, loop passes at 1/2, 1, 3/2, each
within `d = 1/2` of the previous; exactly one emission, at time 1. -/
theorem monitor_sampling_rate_witness :
    List.Chain' (fun a b : ℚ => a + 1 ≤ b ∧ b < a + 1 + 1/2)
      ((0 : ℚ) :: logTimes 0 [1/2, 1, 3/2]) :=
  monitor_sampling_rate (1/2) 0 [1/2, 1, 3/2] (by
    norm_num [List.chain'_cons, List.chain'_singleton])

/-- C6 counterexample. With `last_log_time = 0` and loop passes every
3/10 of a time-unit (continuous ticking), the monitor emits exactly at
times 6/5 and 12/5; the 1-unit window from 13/10 to 23/10 lies between
those two emissions yet contains no emission at all.  So "at least one
sample in every 1-time-unit window" fails. -/
theorem monitor_one_unit_window_counterexample :
    List.Chain' (fun a b : ℚ => b ≤ a + 3/10)
      ((0 : ℚ) :: [3/10, 3/5, 9/10, 6/5, 3/2, 9/5, 21/10, 12/5]) ∧
    logTimes 0 [3/10, 3/5, 9/10, 6/5, 3/2, 9/5, 21/10, 12/5] = [6/5, 12/5] ∧
    (∀ e ∈ logTimes 0 [3/10, 3/5, 9/10, 6/5, 3/2, 9/5, 21/10, 12/5],
      ¬ ((13/10 : ℚ) ≤ e ∧ e < 13/10 + 1)) := by
  refine ⟨?_, ?_, ?_⟩
  · norm_num [List.chain'_cons, List.chain'_singleton]
  · norm_num [logTimes]
  · intro e he
    norm_num [logTimes] at he
    rcases he with rfl | rfl <;> norm_num

/-! ## Supervisor shutdown (main, lines 80-83 and 112-116)

The spawn loop appends one fresh process handle per core to `processes`;
we number the handles `0, ..., num_cores - 1`.  On `KeyboardInterrupt`
the supervisor runs `for p in processes: p.terminate()` and then
`sys.exit(0)`. -/

/-- An action of the interrupt handler: a `p.terminate()` call on one
handle, or the final `sys.exit` with its status. -/
inductive SupEvent where
  | terminate : Nat → SupEvent
  | exitStatus : Nat → SupEvent
deriving DecidableEq, Repr

/-- Lines 80-83: the `processes` list built by the spawn loop, one fresh
handle per core. -/
def spawnWorkers (num_cores : Nat) : List Nat := List.range num_cores

/-- Lines 112-116: on interrupt, terminate each handle of `processes` in
order, then exit with status 0. -/
def shutdownTrace (processes : List Nat) : List SupEvent :=
  processes.map SupEvent.terminate ++ [SupEvent.exitStatus 0]

theorem terminate_injective : Function.Injective SupEvent.terminate := by
  intro a b hab
  cases hab
  rfl

/-- C7. On interrupt, the supervisor issues exactly one terminate to every
spawned worker (each of the `n` handles is terminated once, no other
handle is terminated at all) and its last action is exiting with success
status 0. -/
theorem supervisor_terminates_each_once (n : Nat) :
    (∀ h : Nat, h < n →
      (shutdownTrace (spawnWorkers n)).count (SupEvent.terminate h) = 1) ∧
    (∀ h : Nat, n ≤ h →
      (shutdownTrace (spawnWorkers n)).count (SupEvent.terminate h) = 0) ∧
    (shutdownTrace (spawnWorkers n)).getLast? = some (SupEvent.exitStatus 0) := by
  refine ⟨?_, ?_, ?_⟩
  · intro h hn
    rw [shutdownTrace, List.count_append,
      List.count_map_of_injective _ _ terminate_injective]
    rw [spawnWorkers, List.count_eq_one_of_mem (List.nodup_range n)
      (List.mem_range.mpr hn)]
    simp
  · intro h hn
    rw [shutdownTrace, List.count_append,
      List.count_map_of_injective _ _ terminate_injective]
    rw [spawnWorkers, List.count_eq_zero_of_not_mem
      (by simp [List.mem_range]; omega)]
    simp
  · rw [shutdownTrace, List.getLast?_concat]

/-- Witness for C7 on a 4-core machine: handle 2 is terminated exactly
once and the unspawned handle 7 not at all. -/
theorem supervisor_terminates_each_once_witness :
    (shutdownTrace (spawnWorkers 4)).count (SupEvent.terminate 2) = 1 ∧
    (shutdownTrace (spawnWorkers 4)).count (SupEvent.terminate 7) = 0 :=
  ⟨(supervisor_terminates_each_once 4).1 2 (by decide),
   (supervisor_terminates_each_once 4).2.1 7 (by decide)⟩

/-! ## Shared-state publish (main, lines 76-78 and 95-97)

`shared_phase` and `shared_intensity` are two separate
`manager.Value("i", ...)` cells.  On an escalation the controller runs
`shared_phase.value = phase` (line 95) and, after the local intensity
increment, `shared_intensity.value = intensity` (line 97) — two distinct
shared writes.  A worker may read the pair at any point of that sequence;
`observableStates` lists the shared states before, between and after the
two writes. -/

/-- The two shared manager cells (lines 77-78). -/
structure SharedState where
  shared_phase : Int
  shared_intensity : Int
deriving DecidableEq, Repr

/-- A single-cell shared write. -/
inductive WriteEvent where
  | setPhase : Int → WriteEvent
  | setIntensity : Int → WriteEvent
deriving DecidableEq, Repr

/-- Effect of one shared write on the pair of cells. -/
def applyWrite (s : SharedState) : WriteEvent → SharedState
  | WriteEvent.setPhase p => { s with shared_phase := p }
  | WriteEvent.setIntensity i => { s with shared_intensity := i }

/-- Lines 95 and 97: the publish sequence of one escalation — phase cell
first, intensity cell second. -/
def publishWrites (phase intensity : Int) : List WriteEvent :=
  [WriteEvent.setPhase phase, WriteEvent.setIntensity intensity]

/-- The shared states observable while an escalation's publish runs:
before any write, between the two writes, after both. -/
def observableStates (s : SharedState) (phase intensity : Int) : List SharedState :=
  List.scanl applyWrite s (publishWrites phase intensity)

/-- C8, amended. The controller publishes the pair as two separate
single-cell writes, phase first: the states a worker can observe during
an escalation's publish are exactly the old pair, the torn pair (new
phase with old intensity), and the new pair, in that order, and the pair
left in shared state once the publish completes is the new one.  The
original claim — no torn pair is ever observable — is refuted by
`torn_update_counterexample` below. -/
theorem publish_not_pair_atomic (s : SharedState) (p i : Int) :
    observableStates s p i
      = [s, SharedState.mk p s.shared_intensity, SharedState.mk p i] ∧
    (observableStates s p i).getLast? = some (SharedState.mk p i) := by
  constructor <;> rfl

/-- C8 counterexample. Escalating from `(phase, intensity) = (1, 1)` to
`(2, 2)`, the shared state between the two writes is `(2, 1)` — the new
phase paired with the old intensity, different from both the old and the
new pair — and it is observable by a worker. -/
theorem torn_update_counterexample :
    SharedState.mk 2 1 ∈ observableStates (SharedState.mk 1 1) 2 2 ∧
    SharedState.mk 2 1 ≠ SharedState.mk 1 1 ∧
    SharedState.mk 2 1 ≠ SharedState.mk 2 2 := by
  refine ⟨?_, by decide, by decide⟩
  show SharedState.mk 2 1 ∈ [SharedState.mk 1 1, SharedState.mk 2 1, SharedState.mk 2 2]
  simp
